import Mathlib

/-!
Shallow embedding of the lilv host-library core (src/lilv/lilv.h) and proofs
about it.  The repository ships only the public header: the inline instance
wrappers are embedded directly from the header, while the bodies of the other
operations are modelled from the specification, faithfully to its words.
C floats are modelled as `Rat` (exact values; a NaN sentinel is a separate
constructor where the interface can produce one), machine integers as `Int`,
opaque pointers and handles as abstract `Nat` addresses.
-/

namespace LilvSpec

/-- Typed RDF-term wrapper `LilvValue` (spec section 3): tagged variant
URI / blank node / string literal (optional language tag) / int / float /
bool.  Immutable after construction. -/
inductive LilvValue where
  | uri (s : String)
  | blank (id : String)
  | str (s : String) (lang : Option String)
  | int (i : Int)
  | float (f : Rat)
  | bool (b : Bool)
  deriving DecidableEq, Repr

/-- `lilv_value_is_uri`: whether the value is a URI (resource). -/
def lilv_value_is_uri : LilvValue → Bool
  | LilvValue.uri _ => true
  | _ => false

/-- `lilv_value_is_blank`: whether the value is a blank node. -/
def lilv_value_is_blank : LilvValue → Bool
  | LilvValue.blank _ => true
  | _ => false

/-- `lilv_value_is_string`: whether the value is a string literal. -/
def lilv_value_is_string : LilvValue → Bool
  | LilvValue.str _ _ => true
  | _ => false

/-- `lilv_value_is_int`: whether the value is an integer literal. -/
def lilv_value_is_int : LilvValue → Bool
  | LilvValue.int _ => true
  | _ => false

/-- `lilv_value_is_float`: whether the value is a decimal literal. -/
def lilv_value_is_float : LilvValue → Bool
  | LilvValue.float _ => true
  | _ => false

/-- `lilv_value_is_bool`: whether the value is a boolean. -/
def lilv_value_is_bool : LilvValue → Bool
  | LilvValue.bool _ => true
  | _ => false

/-- Modelled from the spec: `lilv_value_as_uri` (implementation not under
src/).  Valid to call only if `lilv_value_is_uri` holds; the partial domain
is rendered as `Option`. -/
def lilv_value_as_uri : LilvValue → Option String
  | LilvValue.uri s => some s
  | _ => none

/-- Modelled from the spec: `lilv_value_as_blank` (implementation not under
src/).  Valid to call only if `lilv_value_is_blank` holds. -/
def lilv_value_as_blank : LilvValue → Option String
  | LilvValue.blank s => some s
  | _ => none

/-- Modelled from the spec: `lilv_value_as_int` (implementation not under
src/).  Valid to call only if `lilv_value_is_int` holds. -/
def lilv_value_as_int : LilvValue → Option Int
  | LilvValue.int i => some i
  | _ => none

/-- Modelled from the spec: `lilv_value_as_float` (implementation not under
src/).  Per the header contract (lilv.h lines 238-245) it is valid to call
if `lilv_value_is_float` OR `lilv_value_is_int` holds: an integer value is
returned with its content converted to float (exact, so `Rat` is a faithful
stand-in for the conversion of the integer content). -/
def lilv_value_as_float : LilvValue → Option Rat
  | LilvValue.float f => some f
  | LilvValue.int i => some (i : Rat)
  | _ => none

/-- Modelled from the spec: `lilv_value_as_bool` (implementation not under
src/).  Valid to call only if `lilv_value_is_bool` holds. -/
def lilv_value_as_bool : LilvValue → Option Bool
  | LilvValue.bool b => some b
  | _ => none

/-- Well-known port-class URI `LILV_PORT_CLASS_INPUT` (lilv.h line 53). -/
def LILV_PORT_CLASS_INPUT : String := "http://lv2plug.in/ns/lv2core#InputPort"

/-- Well-known port-class URI `LILV_PORT_CLASS_OUTPUT` (lilv.h line 54). -/
def LILV_PORT_CLASS_OUTPUT : String := "http://lv2plug.in/ns/lv2core#OutputPort"

/-- Well-known port-class URI `LILV_PORT_CLASS_CONTROL` (lilv.h line 55). -/
def LILV_PORT_CLASS_CONTROL : String := "http://lv2plug.in/ns/lv2core#ControlPort"

/-- Well-known port-class URI `LILV_PORT_CLASS_AUDIO` (lilv.h line 56). -/
def LILV_PORT_CLASS_AUDIO : String := "http://lv2plug.in/ns/lv2core#AudioPort"

/-- Option URI `LILV_OPTION_FILTER_LANG` (lilv.h line 515). -/
def LILV_OPTION_FILTER_LANG : String := "http://drobilla.net/ns/lilv#filter-lang"

/-- Option URI `LILV_OPTION_DYN_MANIFEST` (lilv.h line 521). -/
def LILV_OPTION_DYN_MANIFEST : String := "http://drobilla.net/ns/lilv#dyn-manifest"

/-- Port (spec section 3): identified by its 0-based position and a symbol
unique within its plugin; carries a set of class URIs and three
independently-optional range literals (default, minimum, maximum). -/
structure LilvPort where
  symbol : String
  classes : List String
  deflt : Option LilvValue
  min : Option LilvValue
  max : Option LilvValue
  deriving DecidableEq, Repr

/-- Plugin metadata (spec section 3): URI key, optional declared name,
ordered port list, and required/optional feature URI sets. -/
structure LilvPlugin where
  uri : String
  name : Option String
  ports : List LilvPort
  requiredFeatures : List String
  optionalFeatures : List String
  deriving DecidableEq, Repr

/-- `lilv_plugin_get_num_ports` (lilv.h lines 812-814). -/
def lilv_plugin_get_num_ports (p : LilvPlugin) : Nat := p.ports.length

/-- Modelled from the spec: `lilv_port_is_a` (implementation not under src/):
membership of the port in a given class, by URI.  The `plugin` argument of
the C function plays no semantic role and is omitted. -/
def lilv_port_is_a (port : LilvPort) (portClass : String) : Bool :=
  port.classes.contains portClass

/-- Modelled from the spec: `lilv_plugin_verify` (implementation not under
src/).  Spec section 4.4: structural checks only — the plugin has a name,
has at least one port, and port symbols are unique within the plugin; a pure
boolean with no side effects. -/
def lilv_plugin_verify (p : LilvPlugin) : Bool :=
  p.name.isSome && !p.ports.isEmpty
    && decide (p.ports.map LilvPort.symbol).Nodup

/-- Modelled from the spec: `lilv_plugin_get_num_ports_of_class`
(implementation not under src/): counts ports that are members of every
listed class.  Per spec section 4.4 the sentinel-terminated variadic form is
rendered as an explicit ordered list of class terms. -/
def lilv_plugin_get_num_ports_of_class (p : LilvPlugin) (classes : List String) : Nat :=
  (p.ports.filter (fun port => classes.all (fun c => lilv_port_is_a port c))).length

/-- Modelled from the spec: `lilv_port_get_range` (implementation not under
src/).  Spec section 4.5: returns three independently-optional literals
(default, minimum, maximum); absence of one does not imply absence of the
others.  The three output pointers are rendered as a triple. -/
def lilv_port_get_range (port : LilvPort) :
    Option LilvValue × Option LilvValue × Option LilvValue :=
  (port.deflt, port.min, port.max)

/-- A C float as observable through the bulk range interface: either a real
number or the NaN sentinel. -/
inductive CFloat where
  | nan
  | val (q : Rat)
  deriving DecidableEq, Repr

/-- One array element of the bulk float-range accessor: the float content of
the optional range literal, or the NaN sentinel if the port is not a control
port, the literal is absent, or it has no float content. -/
def rangeElement (isControl : Bool) (v : Option LilvValue) : CFloat :=
  if isControl then
    match v with
    | some x =>
      match lilv_value_as_float x with
      | some q => CFloat.val q
      | none => CFloat.nan
    | none => CFloat.nan
  else CFloat.nan

/-- Modelled from the spec: `lilv_plugin_get_port_ranges_float`
(implementation not under src/).  Spec section 4.5 and lilv.h lines 816-835:
fills three arrays sized to the plugin's port count, one pass over the
ports, writing a NaN sentinel for any port lacking a float range or not of
control-port type.  The three caller-provided arrays are rendered as the
returned triple (minima, maxima, defaults). -/
def lilv_plugin_get_port_ranges_float (p : LilvPlugin) :
    List CFloat × List CFloat × List CFloat :=
  List.foldl
    (fun acc port =>
      let c := lilv_port_is_a port LILV_PORT_CLASS_CONTROL
      (acc.1 ++ [rangeElement c port.min],
       acc.2.1 ++ [rangeElement c port.max],
       acc.2.2 ++ [rangeElement c port.deflt]))
    ([], [], []) p.ports

/-- A bundle as the discovery collaborator hands it to the core (spec
section 6): a bundle URI together with the plugin declarations extracted
from its documents by the triple queries. -/
structure LilvBundle where
  uri : String
  plugins : List LilvPlugin
  deriving DecidableEq, Repr

/-- Registry (`LilvWorld`, spec section 3): the plugin index (insertion
order preserved), the set of loaded bundle URIs, and the two boolean
options. -/
structure LilvWorld where
  plugins : List LilvPlugin
  loadedBundles : List String
  filterLang : Bool
  dynManifest : Bool
  deriving DecidableEq, Repr

/-- `lilv_world_new` (lilv.h lines 500-506): an empty world; language
filtering is enabled by default (lilv.h line 513). -/
def lilv_world_new : LilvWorld :=
  { plugins := [], loadedBundles := [], filterLang := true, dynManifest := false }

/-- Modelled from the spec: `lilv_world_set_option` (implementation not
under src/).  Recognizes the two boolean option URIs (lilv.h lines 523-534);
an unrecognized URI or a non-boolean value changes nothing. -/
def lilv_world_set_option (w : LilvWorld) (uri : String) (v : LilvValue) : LilvWorld :=
  if uri = LILV_OPTION_FILTER_LANG then
    match v with
    | LilvValue.bool b => { w with filterLang := b }
    | _ => w
  else if uri = LILV_OPTION_DYN_MANIFEST then
    match v with
    | LilvValue.bool b => { w with dynManifest := b }
    | _ => w
  else w

/-- Insert-or-update in the plugin index (spec section 4.3): re-declaring an
already-present plugin URI updates the existing entry in place; a new URI is
appended, preserving insertion order. -/
def insertPlugin (ps : List LilvPlugin) (q : LilvPlugin) : List LilvPlugin :=
  if ps.any (fun r => r.uri == q.uri) then
    ps.map (fun r => if r.uri == q.uri then q else r)
  else ps ++ [q]

/-- Modelled from the spec: `lilv_world_load_bundle` (implementation not
under src/).  Spec section 4.3: idempotent per bundle URI; plugins failing
`lilv_plugin_verify` are silently excluded (discovery's exclusion filter);
surviving declarations are inserted or updated in the plugin index. -/
def lilv_world_load_bundle (w : LilvWorld) (b : LilvBundle) : LilvWorld :=
  if w.loadedBundles.contains b.uri then w
  else
    { w with
      loadedBundles := w.loadedBundles ++ [b.uri]
      plugins := List.foldl insertPlugin w.plugins (b.plugins.filter lilv_plugin_verify) }

/-- Modelled from the spec: `lilv_world_load_all` (implementation not under
src/): enumerates every bundle reachable via the configured search path (the
enumeration is the external collaborator's, given here as a list) and loads
each. -/
def lilv_world_load_all (w : LilvWorld) (bundles : List LilvBundle) : LilvWorld :=
  List.foldl lilv_world_load_bundle w bundles

/-- Modelled from the spec: `lilv_plugins_get_by_uri` (implementation not
under src/): URI lookup in a plugin collection. -/
def lilv_plugins_get_by_uri (ps : List LilvPlugin) (u : String) : Option LilvPlugin :=
  ps.find? (fun p => p.uri == u)

/-- One host call mutating the registry's index: a `lilv_world_load_bundle`
or a `lilv_world_load_all`. -/
inductive LoadOp where
  | bundle (b : LilvBundle)
  | all (bs : List LilvBundle)

/-- Apply one load call to a world. -/
def applyLoadOp (w : LilvWorld) : LoadOp → LilvWorld
  | LoadOp.bundle b => lilv_world_load_bundle w b
  | LoadOp.all bs => lilv_world_load_all w bs

/-- The registry state reached from `lilv_world_new` by a sequence of
load calls. -/
def runLoadOps (ops : List LoadOp) : LilvWorld :=
  List.foldl applyLoadOp lilv_world_new ops

/-- The language tag of a value: only string literals carry one. -/
def langTag : LilvValue → Option String
  | LilvValue.str _ l => l
  | _ => none

/-- Modelled from the spec: the best-match selection of language filtering
(implementation not under src/).  Spec section 4.3 precedence: exact
language-tag match for the active locale, then untagged literal, then first
available. -/
def bestLangMatch (locale : String) (vals : List LilvValue) : Option LilvValue :=
  match vals.find? (fun v => langTag v == some locale) with
  | some v => some v
  | none =>
    match vals.find? (fun v => (langTag v).isNone) with
    | some v => some v
    | none => vals.head?

/-- Modelled from the spec: the language-filtering step applied to the
result of a multi-valued literal query (implementation not under src/).
With `LILV_OPTION_FILTER_LANG` enabled the result collapses to the single
best match for the active locale; with it disabled all variants are
returned (lilv.h lines 508-515). -/
def lilv_world_filter_values (w : LilvWorld) (locale : String)
    (vals : List LilvValue) : List LilvValue :=
  if w.filterLang then (bestLangMatch locale vals).toList else vals

/-- Plugin UI (spec section 3): URI key, declared type-class URIs, bundle
and binary URIs. -/
structure LilvUI where
  uri : String
  classes : List String
  bundleUri : String
  binaryUri : String
  deriving DecidableEq, Repr

/-- One step of UI-support negotiation: try one declared UI type against the
host predicate, keeping the best quality seen so far and the type that
produced it. -/
def uiStep (supportedFunc : String → String → Nat) (containerType : String)
    (acc : Nat × Option String) (t : String) : Nat × Option String :=
  if acc.1 < supportedFunc containerType t then (supportedFunc containerType t, some t)
  else acc

/-- Modelled from the spec: `lilv_ui_is_supported` (implementation not under
src/).  Spec section 4.8: evaluates the host predicate over every declared
UI type against the requested container type and returns the maximum quality
observed, reporting through the second component which UI type produced it
(none when every combination yields 0).  The host predicate maps
(container type, ui type) to a non-negative quality, 0 meaning
unsupported. -/
def lilv_ui_is_supported (ui : LilvUI) (supportedFunc : String → String → Nat)
    (containerType : String) : Nat × Option String :=
  List.foldl (uiStep supportedFunc containerType) (0, none) ui.classes

/-- The native descriptor behind an instance (spec sections 4.7 and 6),
abstracted over the plugin's internal state type: the construction entry
point (which may refuse), the run entry point, and the optional activate /
deactivate entry points.  Per the spec, activate — when present — resets all
internal plugin state to a canonical post-activation state `resetState`. -/
structure LV2Descriptor (σ : Type) where
  URI : String
  instantiateFn : Nat → List String → Option σ
  hasActivate : Bool
  resetState : σ
  runFn : σ → Nat → σ
  hasDeactivate : Bool
  deactivateFn : σ → σ

/-- A live plugin instance (lilv.h lines 1128-1132): the descriptor, the
port-connection table (port index to connected data location, an abstract
address), and the plugin's internal state. -/
structure LilvInstance (σ : Type) where
  descriptor : LV2Descriptor σ
  connections : Nat → Option Nat
  state : σ

/-- Modelled from the spec: `lilv_plugin_instantiate` (implementation not
under src/).  Spec section 4.7: fails (produces no instance, NULL) if any
plugin-required feature is absent from the supplied host feature list, or if
the native construction entry point itself refuses; otherwise the returned
instance starts with no port connected. -/
def lilv_plugin_instantiate {σ : Type} (p : LilvPlugin) (desc : LV2Descriptor σ)
    (sampleRate : Nat) (features : List String) : Option (LilvInstance σ) :=
  if p.requiredFeatures.all (fun f => decide (f ∈ features)) then
    (desc.instantiateFn sampleRate features).map
      (fun s => { descriptor := desc, connections := fun _ => none, state := s })
  else none

/-- `lilv_instance_connect_port` (lilv.h lines 1178-1185): binds a data
location to a port index; callable regardless of activation, and activation
or deactivation does not destroy port connections. -/
def lilv_instance_connect_port {σ : Type} (inst : LilvInstance σ)
    (portIndex : Nat) (dataLocation : Nat) : LilvInstance σ :=
  { inst with
    connections := fun j => if j = portIndex then some dataLocation else inst.connections j }

/-- `lilv_instance_activate` (lilv.h lines 1193-1198): forwards to the
descriptor's activate entry point when one is declared (which resets all
internal plugin state, except port data locations), and is a no-op
otherwise. -/
def lilv_instance_activate {σ : Type} (inst : LilvInstance σ) : LilvInstance σ :=
  if inst.descriptor.hasActivate then
    { inst with state := inst.descriptor.resetState }
  else inst

/-- `lilv_instance_run` (lilv.h lines 1205-1210): runs the instance for a
frame count through the descriptor's run entry point. -/
def lilv_instance_run {σ : Type} (inst : LilvInstance σ) (sampleCount : Nat) :
    LilvInstance σ :=
  { inst with state := inst.descriptor.runFn inst.state sampleCount }

/-- `lilv_instance_deactivate` (lilv.h lines 1217-1222): forwards to the
descriptor's deactivate entry point when one is declared, and is a no-op
otherwise; port connections are untouched. -/
def lilv_instance_deactivate {σ : Type} (inst : LilvInstance σ) : LilvInstance σ :=
  if inst.descriptor.hasDeactivate then
    { inst with state := inst.descriptor.deactivateFn inst.state }
  else inst

/-- The control input port `gain` of the spec's scenario (spec section 8):
range [-90, 24], default 0. -/
def portGain : LilvPort :=
  { symbol := "gain"
    classes := [LILV_PORT_CLASS_CONTROL, LILV_PORT_CLASS_INPUT]
    deflt := some (LilvValue.float 0)
    min := some (LilvValue.float (-90))
    max := some (LilvValue.float 24) }

/-- The plugin `X` of the spec's scenario: one control input port `gain`. -/
def pluginX : LilvPlugin :=
  { uri := "http://example.org/X"
    name := some "X"
    ports := [portGain]
    requiredFeatures := []
    optionalFeatures := [] }

/-- A plugin declaring one required feature `F`, for the instantiation
scenario of spec section 8. -/
def pluginReqF : LilvPlugin :=
  { uri := "http://example.org/reqF"
    name := some "ReqF"
    ports := [portGain]
    requiredFeatures := ["http://example.org/F"]
    optionalFeatures := [] }

/-- A native descriptor over state `Nat` whose construction entry point
always accepts, for witnesses. -/
def descAccept : LV2Descriptor Nat :=
  { URI := "http://example.org/reqF"
    instantiateFn := fun _ _ => some 0
    hasActivate := true
    resetState := 0
    runFn := fun s _ => s + 1
    hasDeactivate := true
    deactivateFn := fun s => s + 1 }

/-- Every value built by `LilvValue.int` satisfies the integer predicate;
this is how an arbitrary value with `lilv_value_is_int` true decomposes. -/
theorem is_int_iff_exists (v : LilvValue) :
    lilv_value_is_int v = true ↔ ∃ i : Int, v = LilvValue.int i := by
  cases v <;> simp [lilv_value_is_int]

/-- C10: for every value on which `lilv_value_is_int` holds, calling
`lilv_value_as_float` is within contract and returns the integer content
converted to float: the as-float accessor's domain is exactly
is-float-or-is-int, unlike the other as-kind accessors, whose domain is
exactly their own kind predicate. -/
theorem as_float_accepts_int (i : Int) (u : LilvValue) :
    lilv_value_is_int (LilvValue.int i) = true
      ∧ lilv_value_as_float (LilvValue.int i) = some ((i : Rat))
      ∧ lilv_value_as_int (LilvValue.int i) = some i
      ∧ (lilv_value_as_float u).isSome = (lilv_value_is_float u || lilv_value_is_int u)
      ∧ (lilv_value_as_int u).isSome = lilv_value_is_int u
      ∧ (lilv_value_as_bool u).isSome = lilv_value_is_bool u
      ∧ (lilv_value_as_uri u).isSome = lilv_value_is_uri u
      ∧ (lilv_value_as_blank u).isSome = lilv_value_is_blank u := by
  refine ⟨rfl, rfl, rfl, ?_, ?_, ?_, ?_, ?_⟩ <;> cases u <;> rfl

/-- C1: instantiation produces no instance whenever some required feature of
the plugin is absent from the host-supplied feature list, or the native
construction entry point refuses. -/
theorem instantiate_fails_on_missing_feature_or_refusal (σ : Type)
    (p : LilvPlugin) (desc : LV2Descriptor σ) (rate : Nat) (features : List String)
    (h : (∃ f ∈ p.requiredFeatures, f ∉ features)
      ∨ desc.instantiateFn rate features = none) :
    lilv_plugin_instantiate p desc rate features = none := by
  unfold lilv_plugin_instantiate
  rcases h with ⟨f, hf, hnf⟩ | hre
  · have hall : ¬ (p.requiredFeatures.all (fun f => decide (f ∈ features)) = true) := by
      rw [List.all_eq_true]
      intro hx
      exact absurd (of_decide_eq_true (hx f hf)) hnf
    rw [if_neg hall]
  · split
    · rw [hre]; rfl
    · rfl

/-- Witness for C1: the plugin requiring feature `F`, instantiated with an
empty host feature list and an accepting native entry point, yields no
instance. -/
theorem instantiate_fails_witness :
    ((∃ f ∈ pluginReqF.requiredFeatures, f ∉ ([] : List String))
        ∨ descAccept.instantiateFn 48000 [] = none)
      ∧ lilv_plugin_instantiate pluginReqF descAccept 48000 [] = none := by
  have h : (∃ f ∈ pluginReqF.requiredFeatures, f ∉ ([] : List String))
      ∨ descAccept.instantiateFn 48000 [] = none :=
    Or.inl ⟨"http://example.org/F", by simp [pluginReqF], by simp⟩
  exact ⟨h, instantiate_fails_on_missing_feature_or_refusal Nat pluginReqF descAccept 48000 [] h⟩

/-- C2: across connect-activate-run-deactivate-activate-run, the port stays
connected to the same data location without reconnecting; activation,
deactivation and running never change the connection table; activation with
no declared activate entry point is a no-op, and with one it resets the
internal state to the descriptor's post-activation state. -/
theorem activation_preserves_connections (σ : Type) (inst : LilvInstance σ)
    (i d n m : Nat) :
    (lilv_instance_run (lilv_instance_activate (lilv_instance_deactivate
        (lilv_instance_run (lilv_instance_activate
          (lilv_instance_connect_port inst i d)) n))) m).connections i = some d
      ∧ (lilv_instance_activate inst).connections = inst.connections
      ∧ (lilv_instance_deactivate inst).connections = inst.connections
      ∧ (lilv_instance_run inst n).connections = inst.connections
      ∧ lilv_instance_activate
          { inst with descriptor := { inst.descriptor with hasActivate := false } }
        = { inst with descriptor := { inst.descriptor with hasActivate := false } }
      ∧ (lilv_instance_activate
          { inst with descriptor := { inst.descriptor with hasActivate := true } }).state
        = inst.descriptor.resetState := by
  have hact : ∀ x : LilvInstance σ, (lilv_instance_activate x).connections = x.connections := by
    intro x
    unfold lilv_instance_activate
    split <;> rfl
  have hdeact : ∀ x : LilvInstance σ,
      (lilv_instance_deactivate x).connections = x.connections := by
    intro x
    unfold lilv_instance_deactivate
    split <;> rfl
  have hrun : ∀ (x : LilvInstance σ) (k : Nat),
      (lilv_instance_run x k).connections = x.connections := fun _ _ => rfl
  refine ⟨?_, hact inst, hdeact inst, hrun inst n, rfl, rfl⟩
  rw [hrun, hact, hdeact, hrun, hact]
  simp [lilv_instance_connect_port]

/-- The invariant of the UI-negotiation loop: the accumulated quality never
decreases, bounds the predicate on every type seen, and is either untouched
or was produced by one of the types seen, which is then reported. -/
theorem uiStep_foldl_spec (f : String → String → Nat) (c : String) :
    ∀ (ts : List String) (acc : Nat × Option String),
      acc.1 ≤ (List.foldl (uiStep f c) acc ts).1
        ∧ (∀ t ∈ ts, f c t ≤ (List.foldl (uiStep f c) acc ts).1)
        ∧ ((List.foldl (uiStep f c) acc ts) = acc
            ∨ ∃ t ∈ ts, (List.foldl (uiStep f c) acc ts).1 = f c t
                ∧ (List.foldl (uiStep f c) acc ts).2 = some t) := by
  intro ts
  induction ts with
  | nil => exact fun acc => ⟨le_refl _, by simp, Or.inl rfl⟩
  | cons t ts ih =>
    intro acc
    obtain ⟨h1, h2, h3⟩ := ih (uiStep f c acc t)
    have hstep_ge : acc.1 ≤ (uiStep f c acc t).1 := by
      unfold uiStep
      split
      · exact le_of_lt (by assumption)
      · exact le_refl _
    have hstep_t : f c t ≤ (uiStep f c acc t).1 := by
      unfold uiStep
      split
      · exact le_refl _
      · exact le_of_not_lt (by assumption)
    refine ⟨le_trans hstep_ge h1, ?_, ?_⟩
    · intro x hx
      rw [List.foldl_cons]
      rcases List.mem_cons.mp hx with hx | hx
      · subst hx
        exact le_trans hstep_t h1
      · exact h2 x hx
    · rcases h3 with h3 | ⟨x, hx, he, hr⟩
      · rw [List.foldl_cons, h3]
        unfold uiStep
        split
        · exact Or.inr ⟨t, List.mem_cons_self t ts, rfl, rfl⟩
        · exact Or.inl rfl
      · exact Or.inr ⟨x, List.mem_cons_of_mem t hx, he, hr⟩

/-- C8: the UI negotiator returns an upper bound of the host predicate over
every declared UI type, and that bound is either 0 or is achieved by some
declared type, which is reported through the ui-type output; in particular
when the predicate yields 0 on every declared type the result is 0. -/
theorem ui_is_supported_max (ui : LilvUI) (f : String → String → Nat) (c : String) :
    (∀ t ∈ ui.classes, f c t ≤ (lilv_ui_is_supported ui f c).1)
      ∧ ((lilv_ui_is_supported ui f c).1 = 0
          ∨ ∃ t ∈ ui.classes, f c t = (lilv_ui_is_supported ui f c).1
              ∧ (lilv_ui_is_supported ui f c).2 = some t) := by
  obtain ⟨_, h2, h3⟩ := uiStep_foldl_spec f c ui.classes (0, none)
  refine ⟨h2, ?_⟩
  rcases h3 with h3 | ⟨t, ht, he, hr⟩
  · exact Or.inl (by rw [lilv_ui_is_supported, h3])
  · exact Or.inr ⟨t, ht, he.symm, hr⟩

/-- Bridging lemma: the boolean `all` over a class list decides membership
in every listed class. -/
theorem all_eq_decide_forall (l : List String) (f : String → Bool) :
    l.all f = decide (∀ c ∈ l, f c = true) := by
  induction l with
  | nil => simp
  | cons a t ih => by_cases ha : f a <;> simp [ha, ih]

/-- C3: counting ports by a non-empty class list is a set intersection — it
equals the number of ports that are members of every listed class, for a
single class it equals simple membership counting with `lilv_port_is_a`, and
it never exceeds any single listed class's count (so it is never a
union). -/
theorem num_ports_of_class_is_intersection (p : LilvPlugin) (cs : List String)
    (h : cs ≠ []) :
    lilv_plugin_get_num_ports_of_class p cs
        = (p.ports.filter
            (fun port => decide (∀ c ∈ cs, lilv_port_is_a port c = true))).length
      ∧ (∀ c, lilv_plugin_get_num_ports_of_class p [c]
          = (p.ports.filter (fun port => lilv_port_is_a port c)).length)
      ∧ (∀ c ∈ cs, lilv_plugin_get_num_ports_of_class p cs
          ≤ lilv_plugin_get_num_ports_of_class p [c]) := by
  refine ⟨?_, ?_, ?_⟩
  · unfold lilv_plugin_get_num_ports_of_class
    congr 1
    apply List.filter_congr
    intro port _
    exact all_eq_decide_forall cs (fun c => lilv_port_is_a port c)
  · intro c
    unfold lilv_plugin_get_num_ports_of_class
    congr 1
    apply List.filter_congr
    intro port _
    simp
  · intro c hc
    unfold lilv_plugin_get_num_ports_of_class
    apply List.Sublist.length_le
    apply List.monotone_filter_right
    intro port hall
    rw [List.all_eq_true] at hall
    simp [hall c hc]

/-- Witness for C3: the scenario plugin with its control input port,
counted by the class list [CONTROL, INPUT]. -/
theorem num_ports_of_class_witness :
    ([LILV_PORT_CLASS_CONTROL, LILV_PORT_CLASS_INPUT] ≠ ([] : List String))
      ∧ (lilv_plugin_get_num_ports_of_class pluginX
            [LILV_PORT_CLASS_CONTROL, LILV_PORT_CLASS_INPUT]
          = (pluginX.ports.filter
              (fun port => decide (∀ c ∈ [LILV_PORT_CLASS_CONTROL, LILV_PORT_CLASS_INPUT],
                lilv_port_is_a port c = true))).length
        ∧ (∀ c, lilv_plugin_get_num_ports_of_class pluginX [c]
            = (pluginX.ports.filter (fun port => lilv_port_is_a port c)).length)
        ∧ (∀ c ∈ [LILV_PORT_CLASS_CONTROL, LILV_PORT_CLASS_INPUT],
            lilv_plugin_get_num_ports_of_class pluginX
                [LILV_PORT_CLASS_CONTROL, LILV_PORT_CLASS_INPUT]
              ≤ lilv_plugin_get_num_ports_of_class pluginX [c])) :=
  ⟨by simp,
   num_ports_of_class_is_intersection pluginX
     [LILV_PORT_CLASS_CONTROL, LILV_PORT_CLASS_INPUT] (by simp)⟩

/-- Duplicate port symbols, stated positionally: two distinct indices whose
ports carry the same symbol. -/
theorem not_nodup_symbols_iff (l : List LilvPort) :
    ¬ (l.map LilvPort.symbol).Nodup ↔
      ∃ i j : Fin l.length, i ≠ j ∧ (l.get i).symbol = (l.get j).symbol := by
  rw [List.Nodup, List.pairwise_map, List.pairwise_iff_get]
  push_neg
  constructor
  · rintro ⟨i, j, hij, hsym⟩
    exact ⟨i, j, Fin.ne_of_lt hij, hsym⟩
  · rintro ⟨i, j, hne, hsym⟩
    rcases lt_or_gt_of_ne hne with hlt | hgt
    · exact ⟨i, j, hlt, hsym⟩
    · exact ⟨j, i, hgt, hsym.symm⟩

/-- C5: `lilv_plugin_verify` returns false exactly when the plugin lacks a
declared name, has no port, or has two ports with the same symbol; it is a
pure structural check (a function of the plugin alone, with no effect on
plugin or registry). -/
theorem plugin_verify_false_iff (p : LilvPlugin) :
    lilv_plugin_verify p = false ↔
      (p.name = none ∨ p.ports = []
        ∨ ∃ i j : Fin p.ports.length, i ≠ j
            ∧ (p.ports.get i).symbol = (p.ports.get j).symbol) := by
  have e2 : ((!p.ports.isEmpty) = true) ↔ ¬ p.ports = [] := by
    cases p.ports <;> simp
  unfold lilv_plugin_verify
  rw [Bool.eq_false_iff, ne_eq, Bool.and_eq_true, Bool.and_eq_true]
  rw [← not_nodup_symbols_iff]
  constructor
  · intro hno
    by_cases h1 : p.name = none
    · exact Or.inl h1
    · by_cases h2 : p.ports = []
      · exact Or.inr (Or.inl h2)
      · refine Or.inr (Or.inr ?_)
        intro hnd
        exact hno ⟨⟨Option.isSome_iff_ne_none.mpr h1, e2.mpr h2⟩, decide_eq_true hnd⟩
  · rintro (h1 | h2 | h3) ⟨⟨hs, he⟩, hn⟩
    · exact (Option.isSome_iff_ne_none.mp hs) h1
    · exact e2.mp he h2
    · exact h3 (of_decide_eq_true hn)

/-- The single pass of the bulk float-range accessor produces exactly the
three per-port maps. -/
theorem port_ranges_eq_maps (p : LilvPlugin) :
    lilv_plugin_get_port_ranges_float p
      = (p.ports.map (fun port =>
            rangeElement (lilv_port_is_a port LILV_PORT_CLASS_CONTROL) port.min),
         p.ports.map (fun port =>
            rangeElement (lilv_port_is_a port LILV_PORT_CLASS_CONTROL) port.max),
         p.ports.map (fun port =>
            rangeElement (lilv_port_is_a port LILV_PORT_CLASS_CONTROL) port.deflt)) := by
  suffices hgen : ∀ (l : List LilvPort) (a b c : List CFloat),
      List.foldl
          (fun acc port =>
            let ctl := lilv_port_is_a port LILV_PORT_CLASS_CONTROL
            (acc.1 ++ [rangeElement ctl port.min],
             acc.2.1 ++ [rangeElement ctl port.max],
             acc.2.2 ++ [rangeElement ctl port.deflt]))
          (a, b, c) l
        = (a ++ l.map (fun port =>
              rangeElement (lilv_port_is_a port LILV_PORT_CLASS_CONTROL) port.min),
           b ++ l.map (fun port =>
              rangeElement (lilv_port_is_a port LILV_PORT_CLASS_CONTROL) port.max),
           c ++ l.map (fun port =>
              rangeElement (lilv_port_is_a port LILV_PORT_CLASS_CONTROL) port.deflt)) by
    unfold lilv_plugin_get_port_ranges_float
    simpa using hgen p.ports [] [] []
  intro l
  induction l with
  | nil => intro a b c; simp
  | cons x t ih =>
    intro a b c
    rw [List.foldl_cons, ih]
    simp

/-- C6: the bulk float-range accessor fills arrays of length `num_ports`
and, at every port index, writes exactly the NaN-encoded content of the
per-port `lilv_port_get_range` triple for that port — NaN whenever the
port is not a control port or the corresponding range literal is absent or
has no float content. -/
theorem bulk_ranges_match_per_port (p : LilvPlugin) (i : Nat)
    (h : i < p.ports.length) :
    (lilv_plugin_get_port_ranges_float p).1.length = lilv_plugin_get_num_ports p
      ∧ (lilv_plugin_get_port_ranges_float p).2.1.length = lilv_plugin_get_num_ports p
      ∧ (lilv_plugin_get_port_ranges_float p).2.2.length = lilv_plugin_get_num_ports p
      ∧ (lilv_plugin_get_port_ranges_float p).1[i]?
          = some (rangeElement
              (lilv_port_is_a (p.ports.get ⟨i, h⟩) LILV_PORT_CLASS_CONTROL)
              (lilv_port_get_range (p.ports.get ⟨i, h⟩)).2.1)
      ∧ (lilv_plugin_get_port_ranges_float p).2.1[i]?
          = some (rangeElement
              (lilv_port_is_a (p.ports.get ⟨i, h⟩) LILV_PORT_CLASS_CONTROL)
              (lilv_port_get_range (p.ports.get ⟨i, h⟩)).2.2)
      ∧ (lilv_plugin_get_port_ranges_float p).2.2[i]?
          = some (rangeElement
              (lilv_port_is_a (p.ports.get ⟨i, h⟩) LILV_PORT_CLASS_CONTROL)
              (lilv_port_get_range (p.ports.get ⟨i, h⟩)).1) := by
  rw [port_ranges_eq_maps]
  refine ⟨by simp [lilv_plugin_get_num_ports],
          by simp [lilv_plugin_get_num_ports],
          by simp [lilv_plugin_get_num_ports], ?_, ?_, ?_⟩
  all_goals
    simp [List.getElem?_map, lilv_port_get_range, List.getElem?_eq_getElem h,
      List.get_eq_getElem]

/-- Witness for C6: the scenario plugin `X` whose `gain` port has range
[-90, 24] and default 0; the bulk call yields min [-90], max [24],
default [0]. -/
theorem bulk_ranges_witness :
    (0 < pluginX.ports.length)
      ∧ ((lilv_plugin_get_port_ranges_float pluginX).1.length
            = lilv_plugin_get_num_ports pluginX
        ∧ (lilv_plugin_get_port_ranges_float pluginX).2.1.length
            = lilv_plugin_get_num_ports pluginX
        ∧ (lilv_plugin_get_port_ranges_float pluginX).2.2.length
            = lilv_plugin_get_num_ports pluginX
        ∧ (lilv_plugin_get_port_ranges_float pluginX).1[0]?
            = some (rangeElement
                (lilv_port_is_a (pluginX.ports.get ⟨0, by decide⟩) LILV_PORT_CLASS_CONTROL)
                (lilv_port_get_range (pluginX.ports.get ⟨0, by decide⟩)).2.1)
        ∧ (lilv_plugin_get_port_ranges_float pluginX).2.1[0]?
            = some (rangeElement
                (lilv_port_is_a (pluginX.ports.get ⟨0, by decide⟩) LILV_PORT_CLASS_CONTROL)
                (lilv_port_get_range (pluginX.ports.get ⟨0, by decide⟩)).2.2)
        ∧ (lilv_plugin_get_port_ranges_float pluginX).2.2[0]?
            = some (rangeElement
                (lilv_port_is_a (pluginX.ports.get ⟨0, by decide⟩) LILV_PORT_CLASS_CONTROL)
                (lilv_port_get_range (pluginX.ports.get ⟨0, by decide⟩)).1))
      ∧ lilv_plugin_get_port_ranges_float pluginX
          = ([CFloat.val (-90)], [CFloat.val 24], [CFloat.val 0]) :=
  ⟨by decide, bulk_ranges_match_per_port pluginX 0 (by decide), rfl⟩

/-- Insert-or-update preserves pairwise-distinct plugin URIs: updating an
existing entry keeps the URI list unchanged; appending a new entry adds a
URI not yet present. -/
theorem insertPlugin_nodup_uris (ps : List LilvPlugin) (q : LilvPlugin)
    (h : (ps.map (fun r => r.uri)).Nodup) :
    ((insertPlugin ps q).map (fun r => r.uri)).Nodup := by
  unfold insertPlugin
  split
  · rename_i hany
    rw [List.map_map]
    have heq : ps.map ((fun r => r.uri) ∘ (fun r => if r.uri == q.uri then q else r))
        = ps.map (fun r => r.uri) := by
      apply List.map_congr_left
      intro r _
      simp only [Function.comp]
      split
      · rename_i hbeq
        exact (eq_of_beq hbeq).symm
      · rfl
    rw [heq]
    exact h
  · rename_i hany
    rw [List.map_append, List.nodup_append]
    refine ⟨h, List.nodup_singleton _, ?_⟩
    intro a ha hb
    rcases List.mem_map.mp ha with ⟨r, hr, hru⟩
    have hb' : a = q.uri := by simpa using hb
    apply hany
    rw [List.any_eq_true]
    exact ⟨r, hr, by rw [hru, hb']; exact beq_self_eq_true _⟩

/-- Folding insert-or-update over any list of plugin declarations preserves
pairwise-distinct URIs in the index. -/
theorem foldl_insertPlugin_nodup_uris (qs : List LilvPlugin) :
    ∀ ps : List LilvPlugin, (ps.map (fun r => r.uri)).Nodup →
      ((List.foldl insertPlugin ps qs).map (fun r => r.uri)).Nodup := by
  induction qs with
  | nil => exact fun ps h => h
  | cons q qs ih =>
    intro ps h
    rw [List.foldl_cons]
    exact ih _ (insertPlugin_nodup_uris ps q h)

/-- `lilv_world_load_bundle` preserves pairwise-distinct plugin URIs. -/
theorem load_bundle_nodup_uris (w : LilvWorld) (b : LilvBundle)
    (h : (w.plugins.map (fun r => r.uri)).Nodup) :
    ((lilv_world_load_bundle w b).plugins.map (fun r => r.uri)).Nodup := by
  unfold lilv_world_load_bundle
  split
  · exact h
  · exact foldl_insertPlugin_nodup_uris _ _ h

/-- `lilv_world_load_all` preserves pairwise-distinct plugin URIs. -/
theorem load_all_nodup_uris (bs : List LilvBundle) :
    ∀ w : LilvWorld, (w.plugins.map (fun r => r.uri)).Nodup →
      ((lilv_world_load_all w bs).plugins.map (fun r => r.uri)).Nodup := by
  induction bs with
  | nil => exact fun w h => h
  | cons b bs ih =>
    intro w h
    unfold lilv_world_load_all
    rw [List.foldl_cons]
    exact ih _ (load_bundle_nodup_uris w b h)

/-- In a list with pairwise-distinct URIs, at most one element matches any
given URI. -/
theorem nodup_uris_filter_le_one (u : String) :
    ∀ ps : List LilvPlugin, (ps.map (fun r => r.uri)).Nodup →
      (ps.filter (fun r => r.uri == u)).length ≤ 1 := by
  intro ps
  induction ps with
  | nil => intro _; simp
  | cons a t ih =>
    intro h
    rw [List.map_cons, List.nodup_cons] at h
    obtain ⟨hnotin, hnd⟩ := h
    by_cases hc : (a.uri == u) = true
    · have ht : t.filter (fun r => r.uri == u) = [] := by
        rw [List.filter_eq_nil_iff]
        intro b hb hbu
        apply hnotin
        rw [List.mem_map]
        exact ⟨b, hb, by rw [eq_of_beq hbu, eq_of_beq hc]⟩
      rw [List.filter_cons, if_pos hc, ht]
      simp
    · rw [List.filter_cons, if_neg hc]
      exact ih hnd

/-- C7: in every registry state reachable from `lilv_world_new` by any
sequence of `lilv_world_load_bundle` / `lilv_world_load_all` calls, plugin
URIs are pairwise distinct — re-declaring an already-present URI updates the
entry in place — so any URI matches at most one plugin in the index. -/
theorem reachable_world_uris_distinct (ops : List LoadOp) :
    (((runLoadOps ops).plugins.map (fun r => r.uri)).Nodup)
      ∧ ∀ u : String,
          ((runLoadOps ops).plugins.filter (fun r => r.uri == u)).length ≤ 1 := by
  have hrun : ∀ (os : List LoadOp) (w : LilvWorld),
      (w.plugins.map (fun r => r.uri)).Nodup →
      (((List.foldl applyLoadOp w os).plugins.map (fun r => r.uri)).Nodup) := by
    intro os
    induction os with
    | nil => exact fun w h => h
    | cons o os ih =>
      intro w h
      rw [List.foldl_cons]
      apply ih
      cases o with
      | bundle b => exact load_bundle_nodup_uris w b h
      | all bs => exact load_all_nodup_uris bs w h
  have hmain : ((runLoadOps ops).plugins.map (fun r => r.uri)).Nodup :=
    hrun ops lilv_world_new (by simp [lilv_world_new])
  exact ⟨hmain, fun u => nodup_uris_filter_le_one u _ hmain⟩

/-- The best-match selection is total on non-empty inputs, picks an element
of the input, and obeys the spec's precedence: an exact language-tag match
when one exists, else an untagged literal when one exists, else the first
available value. -/
theorem bestLangMatch_spec (locale : String) (vals : List LilvValue)
    (h : vals ≠ []) :
    ∃ v, bestLangMatch locale vals = some v ∧ v ∈ vals
      ∧ (if ∃ u ∈ vals, langTag u = some locale then langTag v = some locale
         else if ∃ u ∈ vals, langTag u = none then langTag v = none
         else vals.head? = some v) := by
  cases hf1 : vals.find? (fun x => langTag x == some locale) with
  | some v =>
    have hmem := List.mem_of_find?_eq_some hf1
    have hv : langTag v = some locale := by simpa using List.find?_some hf1
    refine ⟨v, ?_, hmem, ?_⟩
    · simp [bestLangMatch, hf1]
    · rw [if_pos ⟨v, hmem, hv⟩]
      exact hv
  | none =>
    have hno1 : ∀ u ∈ vals, ¬ langTag u = some locale := by
      intro u hu
      simpa using List.find?_eq_none.mp hf1 u hu
    cases hf2 : vals.find? (fun x => (langTag x).isNone) with
    | some v =>
      have hmem := List.mem_of_find?_eq_some hf2
      have hv : langTag v = none := by
        simpa [Option.isNone_iff_eq_none] using List.find?_some hf2
      refine ⟨v, ?_, hmem, ?_⟩
      · simp [bestLangMatch, hf1, hf2]
      · rw [if_neg (by push_neg; exact hno1), if_pos ⟨v, hmem, hv⟩]
        exact hv
    | none =>
      have hno2 : ∀ u ∈ vals, ¬ langTag u = none := by
        intro u hu
        simpa [Option.isNone_iff_eq_none] using List.find?_eq_none.mp hf2 u hu
      obtain ⟨a, t, rfl⟩ := List.exists_cons_of_ne_nil h
      refine ⟨a, ?_, List.mem_cons_self a t, ?_⟩
      · simp [bestLangMatch, hf1, hf2]
      · rw [if_neg (by push_neg; exact hno1), if_neg (by push_neg; exact hno2)]
        rfl

/-- C4: on a multi-valued literal query result, enabling the
language-filtering option collapses to exactly one value chosen by the
precedence exact-locale tag, then untagged, then first available; disabling
it returns all variants unchanged. -/
theorem language_filtering_collapses (w : LilvWorld) (locale : String)
    (vals : List LilvValue) (h : vals ≠ []) :
    lilv_world_filter_values
        (lilv_world_set_option w LILV_OPTION_FILTER_LANG (LilvValue.bool false))
        locale vals = vals
      ∧ ∃ v, lilv_world_filter_values
            (lilv_world_set_option w LILV_OPTION_FILTER_LANG (LilvValue.bool true))
            locale vals = [v]
          ∧ v ∈ vals
          ∧ (if ∃ u ∈ vals, langTag u = some locale then langTag v = some locale
             else if ∃ u ∈ vals, langTag u = none then langTag v = none
             else vals.head? = some v) := by
  have hoff : (lilv_world_set_option w LILV_OPTION_FILTER_LANG
      (LilvValue.bool false)).filterLang = false := by
    simp [lilv_world_set_option]
  have hon : (lilv_world_set_option w LILV_OPTION_FILTER_LANG
      (LilvValue.bool true)).filterLang = true := by
    simp [lilv_world_set_option]
  constructor
  · simp [lilv_world_filter_values, hoff]
  · obtain ⟨v, hbest, hmem, hprec⟩ := bestLangMatch_spec locale vals h
    exact ⟨v, by simp [lilv_world_filter_values, hon, hbest], hmem, hprec⟩

/-- Witness for C4: literals tagged "en" and untagged for the same
predicate, active locale "en": filtering disabled returns both, enabled
returns exactly one value, which carries the "en" tag. -/
theorem language_filtering_witness :
    ([LilvValue.str "color" none, LilvValue.str "colour" (some "en")]
        ≠ ([] : List LilvValue))
      ∧ (lilv_world_filter_values
            (lilv_world_set_option lilv_world_new LILV_OPTION_FILTER_LANG
              (LilvValue.bool false))
            "en" [LilvValue.str "color" none, LilvValue.str "colour" (some "en")]
          = [LilvValue.str "color" none, LilvValue.str "colour" (some "en")]
        ∧ ∃ v, lilv_world_filter_values
              (lilv_world_set_option lilv_world_new LILV_OPTION_FILTER_LANG
                (LilvValue.bool true))
              "en" [LilvValue.str "color" none, LilvValue.str "colour" (some "en")]
            = [v]
            ∧ v ∈ [LilvValue.str "color" none, LilvValue.str "colour" (some "en")]
            ∧ (if ∃ u ∈ [LilvValue.str "color" none,
                  LilvValue.str "colour" (some "en")], langTag u = some "en"
               then langTag v = some "en"
               else if ∃ u ∈ [LilvValue.str "color" none,
                  LilvValue.str "colour" (some "en")], langTag u = none
               then langTag v = none
               else [LilvValue.str "color" none,
                  LilvValue.str "colour" (some "en")].head? = some v)) :=
  ⟨by simp,
   language_filtering_collapses lilv_world_new "en"
     [LilvValue.str "color" none, LilvValue.str "colour" (some "en")] (by simp)⟩

end LilvSpec
